import Mathlib

/-!
Verification development for the simple-web-scraper crawler core
(`src/main.rs`).  The Rust functions are shallowly embedded as Lean
definitions: pure helpers become Lean functions, the crawl loop becomes a
fuel-indexed recursive function over an explicit state, and the external
collaborators (HTTP transport, HTML parsing, CSS-selector engine, the
`url` crate) are modelled by explicit function parameters or by small
executable models that follow their documented contracts.
-/

set_option maxRecDepth 4096

/-! ## String helpers -/

/-- Boolean test that `pat` occurs as a contiguous prefix of `l`
(character-list version of Rust `str::starts_with`). -/
def listStartsWith : List Char → List Char → Bool
  | _, [] => true
  | [], _ :: _ => false
  | a :: as, b :: bs => a = b && listStartsWith as bs

/-- Boolean test that `pat` occurs contiguously somewhere in `l`
(character-list version of Rust `str::contains`). -/
def listContainsSeg (pat : List Char) : List Char → Bool
  | [] => pat.isEmpty
  | c :: cs => listStartsWith (c :: cs) pat || listContainsSeg pat cs

/-- Model of Rust `str::contains` used by the anti-bot detector. -/
def strContainsB (s pat : String) : Bool :=
  listContainsSeg pat.data s.data

/-- Specification-level statement that the string `pat` occurs inside `s`. -/
def StrContains (s pat : String) : Prop :=
  ∃ a b, s = a ++ pat ++ b

/-- Model of Rust `str::starts_with`.  (The core `String.startsWith` is
defined by well-founded recursion and does not reduce in the kernel, so a
structural version is used throughout.) -/
def strStartsWith (s p : String) : Bool :=
  listStartsWith s.data p.data

/-- Model of Rust `str::strip_prefix`: drop `p` from the front of `s` when
`s` starts with `p`. -/
def stripPre (s p : String) : Option String :=
  if strStartsWith s p then some ⟨s.data.drop p.data.length⟩ else none

/-- Model of Rust `str::to_lowercase` (ASCII-level, structural). -/
def strToLower (s : String) : String :=
  ⟨s.data.map Char.toLower⟩

/-- Model of Rust `str::trim` (structural). -/
def strTrim (s : String) : String :=
  ⟨((s.data.dropWhile Char.isWhitespace).reverse.dropWhile Char.isWhitespace).reverse⟩

/-- Split on a separator character, keeping empty pieces
(model of Rust `str::split(char)`). -/
def splitOnCharAux (sep : Char) : List Char → List Char → List String
  | acc, [] => [⟨acc.reverse⟩]
  | acc, c :: cs =>
    if c = sep then ⟨acc.reverse⟩ :: splitOnCharAux sep [] cs
    else splitOnCharAux sep (c :: acc) cs

/-- Split a string on a separator character. -/
def splitOnChar (sep : Char) (s : String) : List String :=
  splitOnCharAux sep [] s.data

/-- Split into whitespace-separated words, skipping empty pieces
(model of Rust `str::split_whitespace`). -/
def splitWsAux : List Char → List Char → List String
  | acc, [] => if acc.isEmpty then [] else [⟨acc.reverse⟩]
  | acc, c :: cs =>
    if c.isWhitespace then
      if acc.isEmpty then splitWsAux [] cs
      else ⟨acc.reverse⟩ :: splitWsAux [] cs
    else splitWsAux (c :: acc) cs

/-- Split a string into whitespace-separated words. -/
def splitWhitespace (s : String) : List String :=
  splitWsAux [] s.data

/-! ## URL model

The program delegates URL parsing and reference resolution to the external
`url` crate.  §4.1 and §6 of the specification describe the contract the
core relies on: parsing an absolute URL extracts a scheme and a lowercased
host, parsing fails on a hostless special-scheme URL such as a bare
`"https://"`, and joining resolves a reference against a base per the usual
resolution rules (scheme-carrying references replace the base wholesale,
`//` references keep only the base scheme, and scheme-less references keep
the base scheme and host).  The model below implements that contract
executably; path-level details (dot segments, percent encoding) are kept
verbatim in the `rest` component since nothing in the claims inspects them.
-/

structure Url where
  scheme : String
  host : Option String
  rest : String
deriving DecidableEq

/-- Character allowed inside a URL scheme after the first letter. -/
def isSchemeChar (c : Char) : Bool :=
  c.isAlphanum || c = '+' || c = '-' || c = '.'

/-- Split a leading `scheme:` off a character list; the first character must
be a letter, later ones scheme characters.  Returns the scheme (reversed
accumulator restored) and the remainder after the colon. -/
def schemeSplitAux (acc : List Char) : List Char → Option (List Char × List Char)
  | [] => none
  | c :: cs =>
    if c = ':' then
      if acc.isEmpty then none else some (acc.reverse, cs)
    else if (if acc.isEmpty then c.isAlpha else isSchemeChar c) then
      schemeSplitAux (c :: acc) cs
    else none

/-- Split a string into its scheme and the remainder after the colon,
when the string begins with a valid `scheme:` prefix. -/
def splitScheme (s : String) : Option (String × String) :=
  (schemeSplitAux [] s.data).map fun p => (⟨p.1⟩, ⟨p.2⟩)

/-- Host part of an authority component: the characters after the last `@`
and before the first `:` (dropping any userinfo and port). -/
def hostOfAuthority (auth : List Char) : List Char :=
  ((auth.reverse.takeWhile (fun c => c ≠ '@')).reverse).takeWhile (fun c => c ≠ ':')

/-- Normalize the part after the authority: an empty path becomes `/`,
mirroring the serialization of the `url` crate. -/
def normRest (t : String) : String :=
  if t = "" || strStartsWith t "?" || strStartsWith t "#" then "/" ++ t else t

/-- Model of `Url::parse`.  Special (http/https) URLs must have a nonempty
host; other schemes parse without a host component. -/
def Url.parse (s : String) : Option Url :=
  match splitScheme s with
  | none => none
  | some (sch, rest) =>
    let scheme := strToLower sch
    if scheme = "http" || scheme = "https" then
      let r := rest.data.dropWhile (fun c => c = '/')
      let auth := r.takeWhile (fun c => c ≠ '/' && c ≠ '?' && c ≠ '#')
      let after : List Char := r.drop auth.length
      let host := hostOfAuthority auth
      if host.isEmpty then none
      else some { scheme := scheme, host := some (strToLower ⟨host⟩),
                  rest := normRest ⟨after⟩ }
    else
      some { scheme := scheme, host := none, rest := rest }

/-- Model of `Url::domain`. -/
def Url.domain (u : Url) : Option String := u.host

/-- Model of `Url::to_string`. -/
def Url.toString (u : Url) : String :=
  match u.host with
  | some h => u.scheme ++ "://" ++ h ++ u.rest
  | none => u.scheme ++ ":" ++ u.rest

/-- Path portion of the `rest` component (up to a query or fragment). -/
def pathOfRest (rest : String) : String :=
  ⟨rest.data.takeWhile (fun c => c ≠ '?' && c ≠ '#')⟩

/-- Query-and-fragment-free part of `rest` including the query (up to a
fragment). -/
def pathQueryOfRest (rest : String) : String :=
  ⟨rest.data.takeWhile (fun c => c ≠ '#')⟩

/-- Drop the last path segment, keeping the final `/` (RFC 3986 merge). -/
def dropLastSeg (path : String) : String :=
  ⟨((path.data.reverse.dropWhile (fun c => c ≠ '/'))).reverse⟩

/-- Model of `Url::join`: resolve the reference `ref` against `base`. -/
def Url.join (base : Url) (ref : String) : Option Url :=
  match splitScheme ref with
  | some _ => Url.parse ref
  | none =>
    if strStartsWith ref "//" then Url.parse (base.scheme ++ ":" ++ ref)
    else
      match base.host with
      | none => none
      | some _ =>
        if ref = "" then some base
        else if strStartsWith ref "/" then some { base with rest := ref }
        else if strStartsWith ref "?" then
          some { base with rest := pathOfRest base.rest ++ ref }
        else if strStartsWith ref "#" then
          some { base with rest := pathQueryOfRest base.rest ++ ref }
        else
          some { base with rest := dropLastSeg (pathOfRest base.rest) ++ ref }

/-- Specification-side predicate: the string is absolute, i.e. it parses as
a URL that has both a scheme and a host present. -/
def isAbsoluteUrlString (s : String) : Bool :=
  match Url.parse s with
  | some u => u.host.isSome
  | none => false

/-! ## URL normalizer (from `normalize_url` in `src/main.rs`) -/

/-- Normalize a URL to absolute form; returns `none` if the URL cannot be
normalized.  Direct translation of `normalize_url`. -/
def normalize_url (base_url : Url) (relative_url : String) : Option String :=
  if strStartsWith relative_url "http://" || strStartsWith relative_url "https://" then
    some relative_url
  else if strStartsWith relative_url "//" then
    some ("https:" ++ relative_url)
  else
    (base_url.join relative_url).map Url.toString

/-! ## Domain filter (from `parse_domain_list` and
`should_add_to_crawl_queue` in `src/main.rs`).  Rust `HashSet<String>` is
modelled by a `List String` used only through membership and emptiness. -/

/-- Parse a comma-separated domain list (trimmed, lowercased, blanks
dropped). -/
def parse_domain_list (domains_str : String) : List String :=
  ((splitOnChar ',' domains_str).map (fun s => strToLower (strTrim s))).filter (fun s => s ≠ "")

/-- Resolution of a link inside `should_add_to_crawl_queue`: try an
absolute parse first, then resolution against the base URL. -/
def resolve_link (link_url : String) (base_url : Url) : Option Url :=
  match Url.parse link_url with
  | some u => some u
  | none => base_url.join link_url

/-- Determine whether a link should be added to the crawl queue.  Direct
translation of `should_add_to_crawl_queue`: parse, visited check, domain
extraction, then block list, allow list, cross-domain flag and same-domain
fallback, in that order. -/
def should_add_to_crawl_queue (link_url : String) (base_url : Url)
    (base_domain : String) (visited : List String)
    (allow_domains block_domains : List String) (cross_domain : Bool) :
    Option String :=
  match resolve_link link_url base_url with
  | none => none
  | some parsed_url =>
    let url_str := parsed_url.toString
    if url_str ∈ visited then none
    else
      match parsed_url.domain with
      | none => none
      | some d =>
        let link_domain := strToLower d
        if ¬ block_domains.isEmpty ∧ link_domain ∈ block_domains then none
        else if ¬ allow_domains.isEmpty then
          if link_domain = base_domain ∨ link_domain ∈ allow_domains then
            some url_str
          else none
        else if cross_domain then some url_str
        else if link_domain = base_domain then some url_str
        else none

/-! ## Error taxonomy and HTTP status classifier -/

/-- The program's error enumeration (`ScraperError` in `src/main.rs`).
`reqwest::Error` payloads are carried as plain message strings. -/
inductive ScraperError where
  | invalidUrl (msg : String)
  | httpError (msg : String)
  | invalidSelector (msg : String)
  | timeout (secs : Nat)
  | depthExceeded (d : Nat)
  | httpStatus (code : Nat) (msg : String)
  | antiBotDetected (msg : String)
  | networkError (msg : String)
  | rateLimited (msg : String)
deriving DecidableEq

/-- Classify an HTTP status code; direct translation of
`classify_http_status`.  Status codes are `u16` values embedded as `Nat`. -/
def classify_http_status (status_code : Nat) (url : String) :
    Except ScraperError Unit :=
  if 200 ≤ status_code ∧ status_code ≤ 299 then .ok ()
  else if status_code = 400 then
    .error (.httpStatus 400
      ("Bad Request - The server couldn\u0027t understand the request to " ++ url))
  else if status_code = 401 then
    .error (.httpStatus 401
      ("Unauthorized - Authentication required to access " ++ url))
  else if status_code = 403 then
    .error (.httpStatus 403
      ("Forbidden - Access denied to " ++ url ++ ". This may indicate bot protection."))
  else if status_code = 404 then
    .error (.httpStatus 404
      ("Not Found - The page " ++ url ++ " does not exist"))
  else if status_code = 429 then
    .error (.rateLimited
      ("Too many requests to " ++ url ++ ". Please slow down and try again later."))
  else if status_code = 500 then
    .error (.httpStatus 500
      ("Internal Server Error - The server at " ++ url ++ " encountered an error"))
  else if status_code = 502 then
    .error (.httpStatus 502
      ("Bad Gateway - The server at " ++ url ++ " received an invalid response"))
  else if status_code = 503 then
    .error (.httpStatus 503
      ("Service Unavailable - The server at " ++ url ++ " is temporarily unavailable"))
  else if status_code = 504 then
    .error (.httpStatus 504
      ("Gateway Timeout - The server at " ++ url ++ " took too long to respond"))
  else
    .error (.httpStatus status_code
      ("HTTP error " ++ ToString.toString status_code ++ " while accessing " ++ url))

/-! ## HTML document model

HTML parsing and CSS-selector matching are performed by the external
`scraper` crate (§6: the markup-query collaborator).  A parsed document is
modelled as a list of top-level nodes over the node tree below; the
tag-name element queries used by the extraction pipeline (`title`, `h1`,
`a`, `img`, `table`, `pre`, `code`, `meta`, ...) are modelled as a
pre-order traversal collecting elements with the given tag, and
`ElementRef::text` as the in-order concatenation of descendant text. -/

inductive Node where
  | elem (tag : String) (attrs : List (String × String)) (children : List Node)
  | text (s : String)

mutual

/-- Decidable equality on nodes (deriving does not handle the nesting). -/
def nodeDecEq : (a b : Node) → Decidable (a = b)
  | .text s, .text t =>
    if h : s = t then .isTrue (by rw [h]) else .isFalse (by simp [h])
  | .text _, .elem _ _ _ => .isFalse (by simp)
  | .elem _ _ _, .text _ => .isFalse (by simp)
  | .elem t1 a1 c1, .elem t2 a2 c2 =>
    if h1 : t1 = t2 then
      if h2 : a1 = a2 then
        match nodesDecEq c1 c2 with
        | .isTrue h3 => .isTrue (by rw [h1, h2, h3])
        | .isFalse h3 => .isFalse (by simp [h3])
      else .isFalse (by simp [h2])
    else .isFalse (by simp [h1])

/-- Decidable equality on node lists. -/
def nodesDecEq : (a b : List Node) → Decidable (a = b)
  | [], [] => .isTrue rfl
  | [], _ :: _ => .isFalse (by simp)
  | _ :: _, [] => .isFalse (by simp)
  | x :: xs, y :: ys =>
    match nodeDecEq x y, nodesDecEq xs ys with
    | .isTrue h1, .isTrue h2 => .isTrue (by rw [h1, h2])
    | .isFalse h1, _ => .isFalse (by simp [h1])
    | _, .isFalse h2 => .isFalse (by simp [h2])

end

instance : DecidableEq Node := nodeDecEq

mutual

/-- Concatenated text content of a node (Rust `el.text().collect()`). -/
def nodeText : Node → String
  | .text s => s
  | .elem _ _ cs => nodesText cs

/-- Concatenated text content of a node list. -/
def nodesText : List Node → String
  | [] => ""
  | n :: ns => nodeText n ++ nodesText ns

end

mutual

/-- Pre-order list of elements with the given tag in a node's subtree. -/
def selectTagN (tag : String) : Node → List Node
  | .text _ => []
  | .elem t a cs => (if t = tag then [Node.elem t a cs] else []) ++ selectTagL tag cs

/-- Pre-order list of elements with the given tag in a forest. -/
def selectTagL (tag : String) : List Node → List Node
  | [] => []
  | n :: ns => selectTagN tag n ++ selectTagL tag ns

end

mutual

/-- Pre-order list of all elements in a node's subtree (document order). -/
def elementsN : Node → List Node
  | .text _ => []
  | .elem t a cs => Node.elem t a cs :: elementsL cs

/-- Pre-order list of all elements in a forest (document order). -/
def elementsL : List Node → List Node
  | [] => []
  | n :: ns => elementsN n ++ elementsL ns

end

/-- Tag of an element node. -/
def tagOf : Node → Option String
  | .elem t _ _ => some t
  | .text _ => none

/-- Attribute lookup on an element (Rust `el.value().attr(name)`). -/
def getAttr (n : Node) (name : String) : Option String :=
  match n with
  | .elem _ attrs _ => attrs.lookup name
  | .text _ => none

/-- Children of an element (its `inner_html` as a fragment). -/
def childrenOf : Node → List Node
  | .text _ => []
  | .elem _ _ cs => cs

/-! ## Data model (`src/main.rs` structs) -/

structure Link where
  text : String
  url : String
deriving DecidableEq

structure Image where
  alt : String
  src : String
deriving DecidableEq

structure Table where
  headers : List String
  rows : List (List String)
deriving DecidableEq

structure CodeBlock where
  content : String
  language : Option String
deriving DecidableEq

structure Metadata where
  description : Option String
  keywords : Option String
  author : Option String
  og_title : Option String
  og_description : Option String
  og_image : Option String
  og_url : Option String
  canonical_url : Option String
  favicon : Option String
deriving DecidableEq

structure CustomSelectorResult where
  selector : String
  «matches» : List String
deriving DecidableEq

structure ScrapedData where
  url : String
  status_code : Nat
  title : Option String
  headings : List String
  paragraphs : List String
  links : List Link
  images : List Image
  tables : List Table
  code_blocks : List CodeBlock
  metadata : Option Metadata
  custom_selectors : List CustomSelectorResult
  depth : Option Nat
deriving DecidableEq

/-! ## Extraction pipeline (direct translations from `src/main.rs`) -/

/-- Extract title: text of the first `title` element, trimmed
(`extract_title`). -/
def extract_title (document : List Node) : Option String :=
  (selectTagL "title" document).head?.map fun el => strTrim (nodeText el)

/-- Extract all headings (`extract_headings`): the source iterates the tags
`h1` .. `h6` in turn, and for each tag pushes that tag's elements in
document order, trimmed, skipping blanks. -/
def extract_headings (document : List Node) : List String :=
  ["h1", "h2", "h3", "h4", "h5", "h6"].flatMap fun tag =>
    (selectTagL tag document).filterMap fun element =>
      let t := strTrim (nodeText element)
      if t = "" then none else some t

/-- Extract all paragraphs (`extract_paragraphs`). -/
def extract_paragraphs (document : List Node) : List String :=
  ((selectTagL "p" document).map fun el => strTrim (nodeText el)).filter fun t => t ≠ ""

/-- Extract and normalize links (`extract_links`). -/
def extract_links (document : List Node) (base_url : Url) : List Link :=
  (selectTagL "a" document).filterMap fun el =>
    match getAttr el "href" with
    | none => none
    | some href =>
      let text := strTrim (nodeText el)
      match normalize_url base_url href with
      | none => none
      | some absolute_url =>
        some { text := if text = "" then href else text, url := absolute_url }

/-- Extract and normalize images (`extract_images`). -/
def extract_images (document : List Node) (base_url : Url) : List Image :=
  (selectTagL "img" document).filterMap fun el =>
    match getAttr el "src" with
    | none => none
    | some src =>
      let alt := (getAttr el "alt").getD ""
      match normalize_url base_url src with
      | none => none
      | some absolute_src => some { alt := alt, src := absolute_src }

/-- Extract tables (`extract_tables`): the source re-parses each table's
inner markup as a fragment, so header/row queries range over the whole
subtree of the table (nested tables included). -/
def extract_tables (document : List Node) : List Table :=
  (selectTagL "table" document).filterMap fun table_elem =>
    let headers := ((selectTagL "th" (childrenOf table_elem)).map
        fun th => strTrim (nodeText th)).filter fun t => t ≠ ""
    let rows := (selectTagL "tr" (childrenOf table_elem)).filterMap fun tr =>
      let cells := (selectTagL "td" (childrenOf tr)).map fun td => strTrim (nodeText td)
      if cells.isEmpty then none else some cells
    if headers.isEmpty ∧ rows.isEmpty then none else some { headers := headers, rows := rows }

/-- Language inference from a class attribute: the first whitespace token
starting with `language-` or `lang-`, with that marker dropped. -/
def codeLangOfClass (classes : String) : Option String :=
  ((splitWhitespace classes).find?
      fun c => strStartsWith c "language-" || strStartsWith c "lang-").map
    fun c => ((stripPre c "language-") <|> (stripPre c "lang-")).getD c

/-- One code block from a `code` element: kept when its trimmed content is
nonblank, stored untrimmed, language inferred from the class attribute. -/
def codeBlockFromCode (code : Node) : Option CodeBlock :=
  let content := nodeText code
  if strTrim content = "" then none
  else some { content := content, language := (getAttr code "class").bind codeLangOfClass }

/-- Code blocks contributed by one `pre` element: one block per `code`
descendant when any exist, else the pre's own nonblank text. -/
def preBlocks (preElem : Node) : List CodeBlock :=
  let code_elements := selectTagL "code" (childrenOf preElem)
  if code_elements.isEmpty then
    let content := nodeText preElem
    if strTrim content = "" then [] else [{ content := content, language := none }]
  else
    code_elements.filterMap codeBlockFromCode

mutual

/-- Pre-order list of `code` elements whose ancestor chain contains no
`pre` element (the source's manual parent walk, as a flagged traversal). -/
def codesOutsidePreN (insidePre : Bool) : Node → List Node
  | .text _ => []
  | .elem t a cs =>
    (if t = "code" ∧ insidePre = false then [Node.elem t a cs] else []) ++
      codesOutsidePreL (insidePre || t = "pre") cs

/-- Forest version of `codesOutsidePreN`. -/
def codesOutsidePreL (insidePre : Bool) : List Node → List Node
  | [] => []
  | n :: ns => codesOutsidePreN insidePre n ++ codesOutsidePreL insidePre ns

end

/-- Extract all code blocks (`extract_code_blocks`): first the `pre` pass,
then the standalone `code` pass for code elements outside any `pre`. -/
def extract_code_blocks (document : List Node) : List CodeBlock :=
  (selectTagL "pre" document).flatMap preBlocks ++
    (codesOutsidePreL false document).filterMap codeBlockFromCode

/-- Empty metadata record. -/
def emptyMetadata : Metadata :=
  { description := none, keywords := none, author := none, og_title := none,
    og_description := none, og_image := none, og_url := none,
    canonical_url := none, favicon := none }

/-- Fold step over `meta` elements (`extract_metadata`, first loop). -/
def applyMeta (m : Metadata) (el : Node) : Metadata :=
  match (getAttr el "name") <|> (getAttr el "property"), getAttr el "content" with
  | some name, some content =>
    match strToLower name with
    | "description" => { m with description := some content }
    | "keywords" => { m with keywords := some content }
    | "author" => { m with author := some content }
    | "og:title" => { m with og_title := some content }
    | "og:description" => { m with og_description := some content }
    | "og:image" => { m with og_image := some content }
    | "og:url" => { m with og_url := some content }
    | _ => m
  | _, _ => m

/-- Fold step over `link` elements (`extract_metadata`, second loop). -/
def applyLinkRel (m : Metadata) (el : Node) : Metadata :=
  match getAttr el "rel", getAttr el "href" with
  | some rel, some href =>
    match strToLower rel with
    | "canonical" => { m with canonical_url := some href }
    | "icon" => { m with favicon := some href }
    | "shortcut icon" => { m with favicon := some href }
    | _ => m
  | _, _ => m

/-- Extract metadata (`extract_metadata`). -/
def extract_metadata (document : List Node) : Metadata :=
  (selectTagL "link" document).foldl applyLinkRel
    ((selectTagL "meta" document).foldl applyMeta emptyMetadata)

/-- Process custom CSS selectors (`process_custom_selectors`).  Selector
parsing and matching belong to the external `scraper` crate and are passed
in as `selOk` (syntactic validity) and `selMatch` (matched elements); the
first syntactically invalid selector yields an `InvalidSelector` error for
the whole page. -/
def process_custom_selectors (selOk : String → Bool)
    (selMatch : String → List Node → List Node) (document : List Node) :
    List String → Except ScraperError (List CustomSelectorResult)
  | [] => .ok []
  | selector_str :: rest =>
    if selOk selector_str then
      let matchTexts := ((selMatch selector_str document).map
          fun el => strTrim (nodeText el)).filter fun t => t ≠ ""
      match process_custom_selectors selOk selMatch document rest with
      | .ok results => .ok ({ selector := selector_str, «matches» := matchTexts } :: results)
      | .error e => .error e
    else
      .error (.invalidSelector selector_str)

/-- Detect common anti-bot protection patterns (`detect_anti_bot_features`). -/
def detect_anti_bot_features (html : String) (title : Option String) : Option String :=
  if strContainsB html "cf-browser-verification" ||
      (strContainsB html "Cloudflare" && strContainsB html "challenge-platform") then
    some "Cloudflare protection detected. The site is checking if you're a bot."
  else if strContainsB html "Cloudflare Ray ID" || strContainsB html "cf-ray" then
    some "Cloudflare error page detected. Access may be restricted."
  else if strContainsB html "recaptcha" || strContainsB html "g-recaptcha" then
    some "reCAPTCHA detected. Human verification required."
  else if strContainsB html "hcaptcha" || strContainsB html "h-captcha" then
    some "hCaptcha detected. Human verification required."
  else if strContainsB html "PerimeterX" || strContainsB html "px-captcha" then
    some "PerimeterX bot detection detected."
  else if strContainsB html "datadome" || strContainsB html "DataDome" then
    some "DataDome bot protection detected."
  else if strContainsB html "akamai" &&
      (strContainsB html "bot" || strContainsB html "challenge") then
    some "Akamai bot protection detected."
  else
    match title with
    | some title_text =>
      let title_lower := strToLower title_text
      if strContainsB title_lower "access denied" || strContainsB title_lower "blocked" ||
          strContainsB title_lower "forbidden" || strContainsB title_lower "captcha" then
        some ("Access restriction detected: '" ++ title_text ++ "'")
      else if strContainsB html "Just a moment" ||
          strContainsB html "Checking your browser" then
        some "Cloudflare JavaScript challenge detected."
      else none
    | none =>
      if strContainsB html "Just a moment" ||
          strContainsB html "Checking your browser" then
        some "Cloudflare JavaScript challenge detected."
      else none

/-! ## Crawl controller

Model of `scrape_website`, `crawl_website` and `scrape_multiple`.  The HTTP
transport is the collaborator parameter `fetch` (producing a status code
and the raw body, or a transport-level error — client construction,
sending and body reading are folded into it), `parseHtml` is the external
document parser, and `selOk`/`selMatch` model the external CSS-selector
engine as in `process_custom_selectors`.  The crawl loop is indexed by
fuel; every claim about it holds for every fuel value.  Besides the
produced results, the loop also returns the trace of entries that were
actually dequeued for fetching. -/

/-- Configuration subset of the CLI `Args` consumed by the crawl core. -/
structure CrawlArgs where
  urls : List String
  selector : List String
  metadata : Bool
  max_depth : Nat
  max_pages : Nat
  allow_domains : Option String
  block_domains : Option String
  cross_domain : Bool

/-- Scrape a single website (`scrape_website`): fetch, classify the status,
parse, check anti-bot markers, extract every facet, process custom
selectors. -/
def scrape_website (fetch : String → Except ScraperError (Nat × String))
    (parseHtml : String → List Node) (selOk : String → Bool)
    (selMatch : String → List Node → List Node) (args : CrawlArgs)
    (url : String) (depth : Option Nat) : Except ScraperError ScrapedData :=
  match fetch url with
  | .error e => .error e
  | .ok (status_code, html) =>
    match classify_http_status status_code url with
    | .error e => .error e
    | .ok _ =>
      let document := parseHtml html
      match Url.parse url with
      | none => .error (.invalidUrl url)
      | some base_url =>
        let title := extract_title document
        match detect_anti_bot_features html title with
        | some msg => .error (.antiBotDetected msg)
        | none =>
          match process_custom_selectors selOk selMatch document args.selector with
          | .error e => .error e
          | .ok custom_selectors =>
            .ok { url := url, status_code := status_code, title := title,
                  headings := extract_headings document,
                  paragraphs := extract_paragraphs document,
                  links := extract_links document base_url,
                  images := extract_images document base_url,
                  tables := extract_tables document,
                  code_blocks := extract_code_blocks document,
                  metadata := if args.metadata then some (extract_metadata document) else none,
                  custom_selectors := custom_selectors,
                  depth := depth }

/-- The crawl loop of `crawl_website`: pop a frontier entry; skip it when
already visited or the page cap is reached; skip it when its depth exceeds
the maximum; otherwise mark it visited and fetch it.  On success, links of
a page fetched strictly below the maximum depth are filtered through
`should_add_to_crawl_queue` and appended at depth + 1; on failure the error
is logged and the traversal continues.  Returns the results together with
the trace of fetched entries. -/
def crawl_loop (scrape : String → Nat → Except ScraperError ScrapedData)
    (base_url : Url) (base_domain : String)
    (allow_domains block_domains : List String) (cross_domain : Bool)
    (max_depth max_pages : Nat) :
    Nat → List (String × Nat) → List String → List ScrapedData →
    List (String × Nat) → List ScrapedData × List (String × Nat)
  | 0, _, _, results, fetched => (results, fetched)
  | _ + 1, [], _, results, fetched => (results, fetched)
  | fuel + 1, (url, depth) :: rest, visited, results, fetched =>
    if url ∈ visited ∨ max_pages ≤ results.length then
      crawl_loop scrape base_url base_domain allow_domains block_domains
        cross_domain max_depth max_pages fuel rest visited results fetched
    else if max_depth < depth then
      crawl_loop scrape base_url base_domain allow_domains block_domains
        cross_domain max_depth max_pages fuel rest visited results fetched
    else
      let visited' := url :: visited
      match scrape url depth with
      | .ok data =>
        let newEntries :=
          if depth < max_depth then
            (data.links.filterMap fun link =>
              should_add_to_crawl_queue link.url base_url base_domain visited'
                allow_domains block_domains cross_domain).map
              fun link_str => (link_str, depth + 1)
          else []
        crawl_loop scrape base_url base_domain allow_domains block_domains
          cross_domain max_depth max_pages fuel (rest ++ newEntries) visited'
          (results ++ [data]) (fetched ++ [(url, depth)])
      | .error _ =>
        crawl_loop scrape base_url base_domain allow_domains block_domains
          cross_domain max_depth max_pages fuel rest visited' results
          (fetched ++ [(url, depth)])

/-- Crawl a website following links (`crawl_website`): the seed is the
first configured URL (`main` guarantees the list is nonempty and warns
that crawl mode ignores the rest), the base URL and domain come from it,
the allow/block lists are parsed once, and the loop starts from the seed
at depth 0.  Run-level failures are only a seed that does not parse or has
no domain. -/
def crawl_website (fuel : Nat) (fetch : String → Except ScraperError (Nat × String))
    (parseHtml : String → List Node) (selOk : String → Bool)
    (selMatch : String → List Node → List Node) (args : CrawlArgs) :
    Except ScraperError (List ScrapedData × List (String × Nat)) :=
  match args.urls with
  | [] => .error (.invalidUrl "no URLs provided")
  | start_url :: _ =>
    match Url.parse start_url with
    | none => .error (.invalidUrl start_url)
    | some base_url =>
      match base_url.domain with
      | none => .error (.invalidUrl "URL has no domain")
      | some base_domain =>
        let allow_domains := (args.allow_domains.map parse_domain_list).getD []
        let block_domains := (args.block_domains.map parse_domain_list).getD []
        .ok (crawl_loop
          (fun url depth => scrape_website fetch parseHtml selOk selMatch args url (some depth))
          base_url base_domain allow_domains block_domains args.cross_domain
          args.max_depth args.max_pages fuel [(start_url, 0)] [] [] [])

/-- Scrape the configured URLs independently (`scrape_multiple`): per-URL
failures are logged and skipped, so the function always succeeds with the
successful pages in order. -/
def scrape_multiple (fetch : String → Except ScraperError (Nat × String))
    (parseHtml : String → List Node) (selOk : String → Bool)
    (selMatch : String → List Node → List Node) (args : CrawlArgs) :
    List ScrapedData :=
  args.urls.filterMap fun url =>
    (scrape_website fetch parseHtml selOk selMatch args url none).toOption

/-! ## Specification-side definitions

These definitions follow the wording of the specification (not the source)
and are used to state refinement-style claims against the source
translations above. -/

/-- The node is an element with exactly the given tag. -/
def hasTag (tag : String) (n : Node) : Bool :=
  match tagOf n with
  | some t => t = tag
  | none => false

/-- The node is an element whose tag belongs to the given list. -/
def hasTagIn (tags : List String) (n : Node) : Bool :=
  match tagOf n with
  | some t => tags.contains t
  | none => false

/-- Specification-side headings: the trimmed, non-blank texts of all
h1..h6 elements in document order, regardless of heading level (§4.4). -/
def headingsInDocumentOrder (document : List Node) : List String :=
  ((elementsL document).filter
      (hasTagIn ["h1", "h2", "h3", "h4", "h5", "h6"])).filterMap fun element =>
    let t := strTrim (nodeText element)
    if t = "" then none else some t

/-- Trimmed, non-blank texts of the heading elements of one level, in
document order. -/
def headingsOfLevel (document : List Node) (tag : String) : List String :=
  ((elementsL document).filter (hasTag tag)).filterMap fun element =>
    let t := strTrim (nodeText element)
    if t = "" then none else some t

/-! ## Concrete fixtures used by witnesses and counterexamples -/

/-- A document whose h2 precedes its h1. -/
def headingsDoc : List Node :=
  [Node.elem "h2" [] [Node.text "Second"], Node.elem "h1" [] [Node.text "First"]]

/-- The code-block fixture from the specification's testable properties. -/
def preCodeRustDoc : List Node :=
  [Node.elem "pre" []
    [Node.elem "code" [("class", "language-rust")] [Node.text "fn main()\x7b\x7d"]]]

/-- An inline code element inside a paragraph, outside any pre. -/
def inlineCodeDoc : List Node :=
  [Node.elem "p" [] [Node.elem "code" [] [Node.text "x"]]]

/-- A document whose title consists of whitespace only. -/
def blankTitleDoc : List Node :=
  [Node.elem "title" [] [Node.text "   "]]

/-- Fetch collaborator answering 200 with an empty body to every URL. -/
def fetchEmpty : String → Except ScraperError (Nat × String) := fun _ => .ok (200, "")

/-- Fetch collaborator failing every request at the transport level. -/
def fetchDown : String → Except ScraperError (Nat × String) :=
  fun url => .error (.networkError ("Connection failed to " ++ url))

/-- Parser collaborator producing an empty document for every body. -/
def parseHtmlNone : String → List Node := fun _ => []

/-- Parser collaborator: the body "dup-links" holds two identical anchors. -/
def parseHtmlDup : String → List Node := fun body =>
  if body = "dup-links" then
    [Node.elem "a" [("href", "/about")] [], Node.elem "a" [("href", "/about")] []]
  else []

/-- Fetch collaborator serving the duplicate-link page at the seed. -/
def fetchDup : String → Except ScraperError (Nat × String) := fun url =>
  if url = "https://example.com" then .ok (200, "dup-links") else .ok (200, "")

/-- Selector-engine validity oracle rejecting every selector. -/
def selOkNever : String → Bool := fun _ => false

/-- Selector-engine validity oracle accepting every selector. -/
def selOkAlways : String → Bool := fun _ => true

/-- Selector-engine matcher returning no elements. -/
def selMatchNone : String → List Node → List Node := fun _ _ => []

/-- Crawl configuration with one invalid custom selector. -/
def argsBadSelector : CrawlArgs :=
  { urls := ["https://example.com"], selector := ["p.unclosed"], metadata := false,
    max_depth := 2, max_pages := 10, allow_domains := none, block_domains := none,
    cross_domain := false }

/-- Crawl configuration without custom selectors. -/
def argsPlain : CrawlArgs :=
  { urls := ["https://example.com"], selector := [], metadata := false,
    max_depth := 1, max_pages := 10, allow_domains := none, block_domains := none,
    cross_domain := false }

/-! ## Helper lemmas -/

theorem strAppend_assoc (a b c : String) : a ++ b ++ c = a ++ (b ++ c) := by
  apply String.ext
  simp [String.data_append]

theorem strEmpty_append (s : String) : "" ++ s = s := by
  apply String.ext
  simp [String.data_append]

/-! ## C1: the block list always wins in the domain filter -/

/-- C1: for every link, visited set, allow set, block set and cross-domain
flag, if the link resolves to an absolute URL whose lowercased domain lies
in a (necessarily non-empty) block set, `should_add_to_crawl_queue`
rejects the link, even when the same domain is allowed and cross-domain
mode is on: the block check precedes the allow-list, cross-domain and
same-domain checks. -/
theorem block_domain_always_rejected (link_url : String) (base_url : Url)
    (base_domain : String) (visited : List String)
    (allow_domains block_domains : List String) (cross_domain : Bool)
    (u : Url) (d : String)
    (hres : resolve_link link_url base_url = some u)
    (hdom : u.domain = some d)
    (hne : block_domains ≠ [])
    (hblk : strToLower d ∈ block_domains) :
    should_add_to_crawl_queue link_url base_url base_domain visited
      allow_domains block_domains cross_domain = none := by
  have hbe : ¬ block_domains.isEmpty := by
    simpa [List.isEmpty_iff] using hne
  simp only [should_add_to_crawl_queue, hres, hdom]
  split
  · rfl
  · rw [if_pos ⟨hbe, hblk⟩]

/-- C1 witness: a concrete blocked link is rejected although its domain is
in the allow list and cross-domain mode is on. -/
theorem block_domain_always_rejected_witness :
    should_add_to_crawl_queue "https://blocked.com/x"
      { scheme := "https", host := some "example.com", rest := "/" }
      "example.com" [] ["blocked.com"] ["blocked.com"] true = none :=
  block_domain_always_rejected "https://blocked.com/x"
    { scheme := "https", host := some "example.com", rest := "/" }
    "example.com" [] ["blocked.com"] ["blocked.com"] true
    { scheme := "https", host := some "blocked.com", rest := "/x" }
    "blocked.com" (by decide) (by decide) (by decide) (by decide)

/-! ## C7: the HTTP status classifier -/

/-- C7: the classifier succeeds exactly on 2xx codes; 429 maps to the
distinct RateLimited kind; 404 maps to an HttpStatus failure whose message
contains "Not Found"; 403's message flags possible bot protection; and
every other non-2xx code maps to an HttpStatus failure carrying that
numeric code. -/
theorem classify_http_status_spec (status_code : Nat) (url : String) :
    (classify_http_status status_code url = .ok () ↔
      200 ≤ status_code ∧ status_code ≤ 299) ∧
    (status_code = 429 →
      ∃ m, classify_http_status status_code url = .error (.rateLimited m)) ∧
    (status_code = 404 →
      ∃ m, classify_http_status status_code url = .error (.httpStatus 404 m) ∧
        StrContains m "Not Found") ∧
    (status_code = 403 →
      ∃ m, classify_http_status status_code url = .error (.httpStatus 403 m) ∧
        StrContains m "This may indicate bot protection") ∧
    (¬ (200 ≤ status_code ∧ status_code ≤ 299) → status_code ≠ 429 →
      ∃ m, classify_http_status status_code url = .error (.httpStatus status_code m)) := by
  refine ⟨?_, ?_, ?_, ?_, ?_⟩
  · constructor
    · intro h
      by_contra hc
      unfold classify_http_status at h
      rw [if_neg hc] at h
      repeat' split at h
      all_goals simp_all
    · intro h
      unfold classify_http_status
      rw [if_pos h]
  · intro h
    subst h
    exact ⟨_, rfl⟩
  · intro h
    subst h
    refine ⟨"Not Found - The page " ++ url ++ " does not exist", rfl, ?_⟩
    refine ⟨"", " - The page " ++ url ++ " does not exist", ?_⟩
    apply String.ext
    simp only [String.data_append, List.append_assoc, List.nil_append]
    rfl
  · intro h
    subst h
    refine ⟨"Forbidden - Access denied to " ++ url ++ ". This may indicate bot protection.",
      rfl, ?_⟩
    refine ⟨"Forbidden - Access denied to " ++ url ++ ". ", ".", ?_⟩
    apply String.ext
    simp only [String.data_append, List.append_assoc, List.nil_append, List.append_nil]
    rfl
  · intro h2 h429
    unfold classify_http_status
    rw [if_neg h2]
    by_cases h : status_code = 400
    · subst h; exact ⟨_, rfl⟩
    rw [if_neg h]
    by_cases h : status_code = 401
    · subst h; exact ⟨_, rfl⟩
    rw [if_neg h]
    by_cases h : status_code = 403
    · subst h; exact ⟨_, rfl⟩
    rw [if_neg h]
    by_cases h : status_code = 404
    · subst h; exact ⟨_, rfl⟩
    rw [if_neg h]
    rw [if_neg h429]
    by_cases h : status_code = 500
    · subst h; exact ⟨_, rfl⟩
    rw [if_neg h]
    by_cases h : status_code = 502
    · subst h; exact ⟨_, rfl⟩
    rw [if_neg h]
    by_cases h : status_code = 503
    · subst h; exact ⟨_, rfl⟩
    rw [if_neg h]
    by_cases h : status_code = 504
    · subst h; exact ⟨_, rfl⟩
    rw [if_neg h]
    exact ⟨_, rfl⟩

/-- C7 witness: the classifier at the concrete codes 429, 404 and 418. -/
theorem classify_http_status_spec_witness :
    (∃ m, classify_http_status 429 "https://example.com" = .error (.rateLimited m)) ∧
    (∃ m, classify_http_status 404 "https://example.com" = .error (.httpStatus 404 m) ∧
      StrContains m "Not Found") ∧
    (∃ m, classify_http_status 418 "https://example.com" = .error (.httpStatus 418 m)) :=
  ⟨(classify_http_status_spec 429 "https://example.com").2.1 rfl,
   (classify_http_status_spec 404 "https://example.com").2.2.1 rfl,
   (classify_http_status_spec 418 "https://example.com").2.2.2.2 (by decide) (by decide)⟩

/-! ## C5: absoluteness of successful normalization -/

/-- C5 counterexample: for the candidate "https://" the normalizer succeeds
(the candidate starts with a scheme and is returned unchanged), yet the
returned string is not absolute: it has no host, and indeed does not even
parse as a URL. -/
theorem normalize_url_not_always_absolute :
    normalize_url { scheme := "https", host := some "example.com", rest := "/" }
      "https://" = some "https://" ∧
    isAbsoluteUrlString "https://" = false := by
  exact ⟨rfl, rfl⟩

/-- C5 amended: whenever the candidate carries no scheme of its own (in
particular it does not start with `http://` or `https://`) and is not
protocol-relative, and the base URL has a host, a successful
`normalize_url` returns the serialization of a URL with both a scheme and
a host present — the result is absolute.  Candidates that hit the two
textual fast paths are returned by prefixing alone and are only absolute
when they themselves contain a nonempty host. -/
theorem normalize_url_absolute_of_schemeless (B : Url) (R : String)
    (hhost : B.host.isSome)
    (hns : splitScheme R = none)
    (h1 : ¬ strStartsWith R "http://") (h2 : ¬ strStartsWith R "https://")
    (h3 : ¬ strStartsWith R "//")
    (s : String) (h : normalize_url B R = some s) :
    ∃ u : Url, B.join R = some u ∧ u.host.isSome ∧ s = u.toString := by
  unfold normalize_url at h
  rw [if_neg (by simp [h1, h2]), if_neg h3] at h
  obtain ⟨u, hu, hs⟩ := Option.map_eq_some'.mp h
  refine ⟨u, hu, ?_, hs.symm⟩
  unfold Url.join at hu
  simp only [hns] at hu
  rw [if_neg h3] at hu
  obtain ⟨a, ha⟩ := Option.isSome_iff_exists.mp hhost
  simp only [ha] at hu
  repeat' split at hu
  all_goals cases hu
  all_goals simp [ha]

/-- C5 witness: a scheme-less relative candidate against a concrete base
resolves to an absolute URL. -/
theorem normalize_url_absolute_of_schemeless_witness :
    ∃ u : Url,
      Url.join { scheme := "https", host := some "example.com", rest := "/" }
        "about" = some u ∧
      u.host.isSome ∧ "https://example.com/about" = u.toString :=
  normalize_url_absolute_of_schemeless
    { scheme := "https", host := some "example.com", rest := "/" } "about"
    (by decide) (by decide) (by decide) (by decide) (by decide)
    "https://example.com/about" (by decide)

/-! ## C6: headings extraction order -/

mutual

/-- Tag selection is the document-order element enumeration filtered by
the tag. -/
theorem selectTagN_eq_filter (tag : String) : ∀ n : Node,
    selectTagN tag n = (elementsN n).filter (hasTag tag)
  | .text s => by simp [selectTagN, elementsN]
  | .elem t a cs => by
    rw [selectTagN, elementsN, List.filter_cons, selectTagL_eq_filter tag cs]
    by_cases h : t = tag
    · simp [hasTag, tagOf, h]
    · simp [hasTag, tagOf, h]

/-- Forest version of `selectTagN_eq_filter`. -/
theorem selectTagL_eq_filter (tag : String) : ∀ l : List Node,
    selectTagL tag l = (elementsL l).filter (hasTag tag)
  | [] => by simp [selectTagL, elementsL]
  | n :: ns => by
    rw [selectTagL, elementsL, List.filter_append, selectTagN_eq_filter tag n,
      selectTagL_eq_filter tag ns]

end

/-- C6 counterexample: on a document whose h2 precedes its h1, the
extraction does not return the headings in document order. -/
theorem extract_headings_not_document_order :
    extract_headings headingsDoc ≠ headingsInDocumentOrder headingsDoc := by
  decide

/-- C6 amended: the headings extraction returns the trimmed, non-blank
heading texts grouped by level — all h1 texts in document order, then all
h2 texts, and so on through h6 — rather than in overall document order. -/
theorem extract_headings_grouped_by_level (document : List Node) :
    extract_headings document =
      ["h1", "h2", "h3", "h4", "h5", "h6"].flatMap (headingsOfLevel document) := by
  unfold extract_headings headingsOfLevel
  simp only [selectTagL_eq_filter]

/-! ## C10: empty titles versus absent titles -/

/-- C10: the title extraction returns none exactly when the document has
no title element; a present title element whose text trims to the empty
string yields some "", distinct from the absent case. -/
theorem extract_title_blank_vs_absent (document : List Node) :
    (extract_title document = none ↔ selectTagL "title" document = []) ∧
    (∀ el rest, selectTagL "title" document = el :: rest →
      strTrim (nodeText el) = "" → extract_title document = some "") := by
  constructor
  · unfold extract_title
    cases h : selectTagL "title" document <;> simp [h]
  · intro el rest h htrim
    unfold extract_title
    rw [h]
    simp [htrim]

/-- C10 witness: a whitespace-only title yields some "", while the title
element is present. -/
theorem extract_title_blank_vs_absent_witness :
    extract_title blankTitleDoc = some "" ∧ ¬ extract_title blankTitleDoc = none :=
  ⟨(extract_title_blank_vs_absent blankTitleDoc).2
      (Node.elem "title" [] [Node.text "   "]) [] (by decide) (by decide),
   by decide⟩

/-! ## C8: code block extraction -/

/-- Every code block produced from a single code element has nonblank
trimmed content. -/
theorem codeBlockFromCode_nonblank {c : Node} {b : CodeBlock}
    (h : codeBlockFromCode c = some b) : strTrim b.content ≠ "" := by
  simp only [codeBlockFromCode] at h
  split at h
  · exact absurd h (by simp)
  · next hne => cases h; exact hne

/-- Every code block produced from a pre element has nonblank trimmed
content. -/
theorem preBlocks_nonblank {p : Node} {b : CodeBlock}
    (h : b ∈ preBlocks p) : strTrim b.content ≠ "" := by
  simp only [preBlocks] at h
  split at h
  · split at h
    · exact absurd h (by simp)
    · next hne =>
      rw [List.mem_singleton] at h
      subst h
      exact hne
  · obtain ⟨c, _, hc⟩ := List.mem_filterMap.mp h
    exact codeBlockFromCode_nonblank hc

/-- C8: the specification's pre/code fixture yields exactly one rust code
block; every code element outside any pre with nonblank text contributes
an inline code block with its text and inferred language; and no emitted
code block has blank trimmed content, so blank code and pre elements yield
nothing. -/
theorem extract_code_blocks_spec :
    (extract_code_blocks preCodeRustDoc =
      [{ content := "fn main()\x7b\x7d", language := some "rust" }]) ∧
    (∀ (document : List Node) (c : Node), c ∈ codesOutsidePreL false document →
      strTrim (nodeText c) ≠ "" →
      ({ content := nodeText c,
         language := (getAttr c "class").bind codeLangOfClass } : CodeBlock) ∈
        extract_code_blocks document) ∧
    (∀ (document : List Node) (b : CodeBlock), b ∈ extract_code_blocks document →
      strTrim b.content ≠ "") := by
  refine ⟨by decide, ?_, ?_⟩
  · intro document c hc hne
    unfold extract_code_blocks
    apply List.mem_append_right
    exact List.mem_filterMap.mpr ⟨c, hc, by simp only [codeBlockFromCode]; rw [if_neg hne]⟩
  · intro document b hb
    unfold extract_code_blocks at hb
    rcases List.mem_append.mp hb with h | h
    · obtain ⟨p, _, hbp⟩ := List.mem_flatMap.mp h
      exact preBlocks_nonblank hbp
    · obtain ⟨c, _, hc⟩ := List.mem_filterMap.mp h
      exact codeBlockFromCode_nonblank hc

/-- C8 witness: the inline code element of the fixture document yields its
inline code block. -/
theorem extract_code_blocks_spec_witness :
    ({ content := "x", language := none } : CodeBlock) ∈
      extract_code_blocks inlineCodeDoc :=
  extract_code_blocks_spec.2.1 inlineCodeDoc (Node.elem "code" [] [Node.text "x"])
    (by decide) (by decide)

/-! ## C2: page cap and depth cap -/

/-- Crawl loop invariant: the result count never exceeds the page cap and
every fetched entry's depth is at most the maximum depth. -/
theorem crawl_loop_bounds (scrape : String → Nat → Except ScraperError ScrapedData)
    (base_url : Url) (base_domain : String)
    (allow_domains block_domains : List String) (cross_domain : Bool)
    (max_depth max_pages : Nat) :
    ∀ (fuel : Nat) (queue : List (String × Nat)) (visited : List String)
      (results : List ScrapedData) (fetched : List (String × Nat)),
      results.length ≤ max_pages →
      (∀ p ∈ fetched, p.2 ≤ max_depth) →
      (crawl_loop scrape base_url base_domain allow_domains block_domains
          cross_domain max_depth max_pages fuel queue visited results
          fetched).1.length ≤ max_pages ∧
        ∀ p ∈ (crawl_loop scrape base_url base_domain allow_domains block_domains
          cross_domain max_depth max_pages fuel queue visited results fetched).2,
          p.2 ≤ max_depth := by
  intro fuel
  induction fuel with
  | zero =>
    intro queue visited results fetched h1 h2
    exact ⟨h1, h2⟩
  | succ fuel ih =>
    intro queue visited results fetched h1 h2
    rcases queue with _ | ⟨⟨url, depth⟩, rest⟩
    · exact ⟨h1, h2⟩
    · simp only [crawl_loop]
      split
      · exact ih rest visited results fetched h1 h2
      · next hno =>
        split
        · exact ih rest visited results fetched h1 h2
        · next hnd =>
          split
          · next data heq =>
            apply ih
            · rw [List.length_append]
              obtain ⟨-, hle⟩ := not_or.mp hno
              simp only [List.length_singleton]
              omega
            · intro p hp
              rcases List.mem_append.mp hp with hp | hp
              · exact h2 p hp
              · rw [List.mem_singleton] at hp
                subst hp
                exact Nat.le_of_not_lt hnd
          · next e heq =>
            apply ih
            · exact h1
            · intro p hp
              rcases List.mem_append.mp hp with hp | hp
              · exact h2 p hp
              · rw [List.mem_singleton] at hp
                subst hp
                exact Nat.le_of_not_lt hnd

/-- C2: for every crawl run — any seed, caps, fetch collaborator and fuel —
the controller produces at most `max_pages` results and never fetches a
dequeued frontier entry whose depth exceeds `max_depth`. -/
theorem crawl_website_respects_caps (fuel : Nat)
    (fetch : String → Except ScraperError (Nat × String))
    (parseHtml : String → List Node) (selOk : String → Bool)
    (selMatch : String → List Node → List Node) (args : CrawlArgs)
    (results : List ScrapedData) (trace : List (String × Nat))
    (h : crawl_website fuel fetch parseHtml selOk selMatch args = .ok (results, trace)) :
    results.length ≤ args.max_pages ∧ ∀ p ∈ trace, p.2 ≤ args.max_depth := by
  unfold crawl_website at h
  rcases hu : args.urls with _ | ⟨start_url, rest_urls⟩
  · simp only [hu] at h
    exact (Except.noConfusion h)
  · simp only [hu] at h
    rcases hp : Url.parse start_url with _ | base_url
    · simp only [hp] at h
      exact (Except.noConfusion h)
    · simp only [hp] at h
      rcases hd : base_url.domain with _ | base_domain
      · simp only [hd] at h
        exact (Except.noConfusion h)
      · simp only [hd] at h
        injection h with h
        have hb := crawl_loop_bounds
          (fun url depth => scrape_website fetch parseHtml selOk selMatch args url (some depth))
          base_url base_domain ((args.allow_domains.map parse_domain_list).getD [])
          ((args.block_domains.map parse_domain_list).getD []) args.cross_domain
          args.max_depth args.max_pages fuel [(start_url, 0)] [] [] []
          (by simp) (by simp)
        rw [h] at hb
        exact hb

/-- C2 witness: a concrete crawl run whose transport is down stays within
the caps. -/
theorem crawl_website_respects_caps_witness :
    ([] : List ScrapedData).length ≤ argsPlain.max_pages ∧
      ∀ p ∈ [("https://example.com", 0)], Prod.snd p ≤ argsPlain.max_depth :=
  crawl_website_respects_caps 4 fetchDown parseHtmlNone selOkAlways selMatchNone
    argsPlain [] [("https://example.com", 0)] (by rfl)

/-! ## C3: visited-set deduplication -/

/-- A successful scrape reports exactly the URL it was asked to fetch. -/
theorem scrape_website_url (fetch : String → Except ScraperError (Nat × String))
    (parseHtml : String → List Node) (selOk : String → Bool)
    (selMatch : String → List Node → List Node) (args : CrawlArgs)
    (url : String) (depth : Option Nat) (data : ScrapedData)
    (h : scrape_website fetch parseHtml selOk selMatch args url depth = .ok data) :
    data.url = url := by
  unfold scrape_website at h
  rcases hf : fetch url with e | ⟨status_code, html⟩ <;> simp only [hf] at h
  · exact (Except.noConfusion h)
  rcases hc : classify_http_status status_code url with e | u <;> simp only [hc] at h
  · exact (Except.noConfusion h)
  rcases hp : Url.parse url with _ | base_url <;> simp only [hp] at h
  · exact (Except.noConfusion h)
  rcases hab : detect_anti_bot_features html (extract_title (parseHtml html))
      with _ | msg <;> simp only [hab] at h
  case some => exact (Except.noConfusion h)
  rcases hcs : process_custom_selectors selOk selMatch (parseHtml html) args.selector
      with e | custom <;> simp only [hcs] at h
  · exact (Except.noConfusion h)
  injection h with h
  rw [← h]

/-- Crawl loop invariant: result URLs are pairwise distinct and all lie in
the visited set, because a URL is inserted into the visited set before its
fetch, the set only grows, and dequeued visited URLs are skipped. -/
theorem crawl_loop_nodup (scrape : String → Nat → Except ScraperError ScrapedData)
    (base_url : Url) (base_domain : String)
    (allow_domains block_domains : List String) (cross_domain : Bool)
    (max_depth max_pages : Nat)
    (hscrape : ∀ u d data, scrape u d = .ok data → data.url = u) :
    ∀ (fuel : Nat) (queue : List (String × Nat)) (visited : List String)
      (results : List ScrapedData) (fetched : List (String × Nat)),
      (results.map ScrapedData.url).Nodup →
      (∀ r ∈ results, r.url ∈ visited) →
      ((crawl_loop scrape base_url base_domain allow_domains block_domains
          cross_domain max_depth max_pages fuel queue visited results
          fetched).1.map ScrapedData.url).Nodup := by
  intro fuel
  induction fuel with
  | zero => intro queue visited results fetched h1 h2; exact h1
  | succ fuel ih =>
    intro queue visited results fetched h1 h2
    rcases queue with _ | ⟨⟨url, depth⟩, rest⟩
    · exact h1
    · simp only [crawl_loop]
      split
      · exact ih rest visited results fetched h1 h2
      · next hno =>
        split
        · exact ih rest visited results fetched h1 h2
        · next hnd =>
          split
          · next data heq =>
            apply ih
            · rw [List.map_append, List.map_singleton]
              rw [List.nodup_append]
              refine ⟨h1, List.nodup_singleton _, ?_⟩
              intro x hx hx'
              rw [List.mem_singleton] at hx'
              obtain ⟨r, hr, hru⟩ := List.mem_map.mp hx
              obtain ⟨hnv, -⟩ := not_or.mp hno
              apply hnv
              rw [← hscrape url depth data heq, ← hx', ← hru]
              exact h2 r hr
            · intro r hr
              rcases List.mem_append.mp hr with hr | hr
              · exact List.mem_cons_of_mem _ (h2 r hr)
              · rw [List.mem_singleton] at hr
                rw [hr, hscrape url depth data heq]
                exact List.mem_cons_self _ _
          · next e heq =>
            apply ih
            · exact h1
            · intro r hr
              exact List.mem_cons_of_mem _ (h2 r hr)

/-- C3: in every crawl run, the produced results carry pairwise distinct
URLs — enqueuing the same resolved URL onto the frontier twice never
yields two PageResults for it. -/
theorem crawl_website_results_nodup (fuel : Nat)
    (fetch : String → Except ScraperError (Nat × String))
    (parseHtml : String → List Node) (selOk : String → Bool)
    (selMatch : String → List Node → List Node) (args : CrawlArgs)
    (results : List ScrapedData) (trace : List (String × Nat))
    (h : crawl_website fuel fetch parseHtml selOk selMatch args = .ok (results, trace)) :
    (results.map ScrapedData.url).Nodup := by
  unfold crawl_website at h
  rcases hu : args.urls with _ | ⟨start_url, rest_urls⟩
  · simp only [hu] at h
    exact (Except.noConfusion h)
  · simp only [hu] at h
    rcases hp : Url.parse start_url with _ | base_url
    · simp only [hp] at h
      exact (Except.noConfusion h)
    · simp only [hp] at h
      rcases hd : base_url.domain with _ | base_domain
      · simp only [hd] at h
        exact (Except.noConfusion h)
      · simp only [hd] at h
        injection h with h
        have hb := crawl_loop_nodup
          (fun url depth => scrape_website fetch parseHtml selOk selMatch args url (some depth))
          base_url base_domain ((args.allow_domains.map parse_domain_list).getD [])
          ((args.block_domains.map parse_domain_list).getD []) args.cross_domain
          args.max_depth args.max_pages
          (fun u d data hh => scrape_website_url fetch parseHtml selOk selMatch args u (some d) data hh)
          fuel [(start_url, 0)] [] [] [] (by simp) (by simp)
        rw [h] at hb
        exact hb

/-- C3 witness: a concrete run whose seed page links to the same resolved
URL twice produces that page only once; the result URLs are distinct. -/
theorem crawl_website_results_nodup_witness :
    (List.map ScrapedData.url
      [{ url := "https://example.com", status_code := 200, title := none,
         headings := [], paragraphs := [],
         links := [{ text := "/about", url := "https://example.com/about" },
                   { text := "/about", url := "https://example.com/about" }],
         images := [], tables := [], code_blocks := [], metadata := none,
         custom_selectors := [], depth := some 0 },
       { url := "https://example.com/about", status_code := 200, title := none,
         headings := [], paragraphs := [], links := [], images := [], tables := [],
         code_blocks := [], metadata := none, custom_selectors := [],
         depth := some 1 }]).Nodup :=
  crawl_website_results_nodup 6 fetchDup parseHtmlDup selOkAlways selMatchNone
    argsPlain
    [{ url := "https://example.com", status_code := 200, title := none,
       headings := [], paragraphs := [],
       links := [{ text := "/about", url := "https://example.com/about" },
                 { text := "/about", url := "https://example.com/about" }],
       images := [], tables := [], code_blocks := [], metadata := none,
       custom_selectors := [], depth := some 0 },
     { url := "https://example.com/about", status_code := 200, title := none,
       headings := [], paragraphs := [], links := [], images := [], tables := [],
       code_blocks := [], metadata := none, custom_selectors := [],
       depth := some 1 }]
    [("https://example.com", 0), ("https://example.com/about", 1)] (by rfl)

/-! ## C4: invalid custom selectors do not abort the run -/

/-- Processing a selector list containing an invalid selector always
fails. -/
theorem process_custom_selectors_error (selOk : String → Bool)
    (selMatch : String → List Node → List Node) (document : List Node) :
    ∀ (selectors : List String) (s : String), s ∈ selectors → selOk s = false →
      ∃ e, process_custom_selectors selOk selMatch document selectors = .error e := by
  intro selectors
  induction selectors with
  | nil => intro s hs; exact absurd hs (by simp)
  | cons a rest ih =>
    intro s hs hbad
    by_cases ha : selOk a = true
    · rcases List.mem_cons.mp hs with rfl | hmem
      · rw [ha] at hbad; exact absurd hbad (by simp)
      · obtain ⟨e, he⟩ := ih s hmem hbad
        refine ⟨e, ?_⟩
        unfold process_custom_selectors
        rw [if_pos ha, he]
    · exact ⟨.invalidSelector a, by
        unfold process_custom_selectors
        rw [if_neg ha]⟩

/-- With an invalid selector configured, scraping any page fails (with the
selector error, or earlier with a transport/status/anti-bot error). -/
theorem scrape_website_error_of_invalid_selector
    (fetch : String → Except ScraperError (Nat × String))
    (parseHtml : String → List Node) (selOk : String → Bool)
    (selMatch : String → List Node → List Node) (args : CrawlArgs)
    (s : String) (hs : s ∈ args.selector) (hbad : selOk s = false)
    (url : String) (depth : Option Nat) :
    ∃ e, scrape_website fetch parseHtml selOk selMatch args url depth = .error e := by
  unfold scrape_website
  rcases hf : fetch url with e | ⟨status_code, html⟩ <;> simp only [hf]
  · exact ⟨e, rfl⟩
  rcases hc : classify_http_status status_code url with e | u <;> simp only [hc]
  · exact ⟨e, rfl⟩
  rcases hp : Url.parse url with _ | base_url <;> simp only [hp]
  · exact ⟨.invalidUrl url, rfl⟩
  rcases hab : detect_anti_bot_features html (extract_title (parseHtml html))
      with _ | msg <;> simp only [hab]
  · obtain ⟨e, he⟩ :=
      process_custom_selectors_error selOk selMatch (parseHtml html) args.selector s hs hbad
    simp only [he]
    exact ⟨e, rfl⟩
  · exact ⟨.antiBotDetected msg, rfl⟩

/-- When every scrape fails, the crawl loop passes its result list through
unchanged. -/
theorem crawl_loop_no_results (scrape : String → Nat → Except ScraperError ScrapedData)
    (base_url : Url) (base_domain : String)
    (allow_domains block_domains : List String) (cross_domain : Bool)
    (max_depth max_pages : Nat)
    (hscrape : ∀ u d, ∃ e, scrape u d = .error e) :
    ∀ (fuel : Nat) (queue : List (String × Nat)) (visited : List String)
      (results : List ScrapedData) (fetched : List (String × Nat)),
      (crawl_loop scrape base_url base_domain allow_domains block_domains
        cross_domain max_depth max_pages fuel queue visited results fetched).1 = results := by
  intro fuel
  induction fuel with
  | zero => intro queue visited results fetched; rfl
  | succ fuel ih =>
    intro queue visited results fetched
    rcases queue with _ | ⟨⟨url, depth⟩, rest⟩
    · rfl
    · simp only [crawl_loop]
      obtain ⟨e, he⟩ := hscrape url depth
      rw [he]
      split
      · exact ih rest visited results fetched
      · split
        · exact ih rest visited results fetched
        · exact ih rest (url :: visited) results (fetched ++ [(url, depth)])

/-- C4 amended: an invalid custom selector fails every page's extraction,
but the failure is logged and skipped per page like a fetch failure rather
than aborting the run: a crawl run that starts never returns a run-level
InvalidSelector error and simply produces zero results, and the non-crawl
multi-URL scrape likewise returns zero results without failing. -/
theorem invalid_selector_fails_pages_not_run (fuel : Nat)
    (fetch : String → Except ScraperError (Nat × String))
    (parseHtml : String → List Node) (selOk : String → Bool)
    (selMatch : String → List Node → List Node) (args : CrawlArgs)
    (s : String) (hs : s ∈ args.selector) (hbad : selOk s = false) :
    (∀ results trace,
      crawl_website fuel fetch parseHtml selOk selMatch args = .ok (results, trace) →
      results = []) ∧
    (∀ e, crawl_website fuel fetch parseHtml selOk selMatch args = .error e →
      ∃ m, e = .invalidUrl m) ∧
    scrape_multiple fetch parseHtml selOk selMatch args = [] := by
  have hscr : ∀ (url : String) (depth : Option Nat),
      ∃ e, scrape_website fetch parseHtml selOk selMatch args url depth = .error e :=
    fun url depth => scrape_website_error_of_invalid_selector fetch parseHtml selOk
      selMatch args s hs hbad url depth
  refine ⟨?_, ?_, ?_⟩
  · intro results trace h
    unfold crawl_website at h
    rcases hu : args.urls with _ | ⟨start_url, rest_urls⟩
    · simp only [hu] at h
      exact (Except.noConfusion h)
    · simp only [hu] at h
      rcases hp : Url.parse start_url with _ | base_url
      · simp only [hp] at h
        exact (Except.noConfusion h)
      · simp only [hp] at h
        rcases hd : base_url.domain with _ | base_domain
        · simp only [hd] at h
          exact (Except.noConfusion h)
        · simp only [hd] at h
          injection h with h
          have hz := crawl_loop_no_results
            (fun url depth => scrape_website fetch parseHtml selOk selMatch args url (some depth))
            base_url base_domain ((args.allow_domains.map parse_domain_list).getD [])
            ((args.block_domains.map parse_domain_list).getD []) args.cross_domain
            args.max_depth args.max_pages
            (fun u d => hscr u (some d))
            fuel [(start_url, 0)] [] [] []
          rw [h] at hz
          exact hz
  · intro e h
    unfold crawl_website at h
    rcases hu : args.urls with _ | ⟨start_url, rest_urls⟩
    · simp only [hu] at h
      injection h with h
      exact ⟨"no URLs provided", h.symm⟩
    · simp only [hu] at h
      rcases hp : Url.parse start_url with _ | base_url
      · simp only [hp] at h
        injection h with h
        exact ⟨start_url, h.symm⟩
      · simp only [hp] at h
        rcases hd : base_url.domain with _ | base_domain
        · simp only [hd] at h
          injection h with h
          exact ⟨"URL has no domain", h.symm⟩
        · simp only [hd] at h
          exact (Except.noConfusion h)
  · unfold scrape_multiple
    apply List.filterMap_eq_nil_iff.mpr
    intro url hu
    obtain ⟨e, he⟩ := hscr url none
    rw [he]
    rfl

/-- C4 counterexample: a concrete run with a syntactically invalid custom
selector does not abort with an InvalidSelector configuration error — it
returns successfully with zero results, the per-page failures having been
logged and skipped. -/
theorem invalid_selector_run_returns_ok :
    selOkNever "p.unclosed" = false ∧
    crawl_website 4 fetchEmpty parseHtmlNone selOkNever selMatchNone argsBadSelector =
      .ok ([], [("https://example.com", 0)]) :=
  ⟨rfl, by rfl⟩

/-! ## C9: crawl mode uses only the first URL -/

/-- C9: the crawl controller depends only on the first configured URL:
with extra URLs appended the run produces identical results and an
identical fetch trace, so the extra URLs contribute no fetch and no
PageResult. -/
theorem crawl_website_ignores_extra_urls (fuel : Nat)
    (fetch : String → Except ScraperError (Nat × String))
    (parseHtml : String → List Node) (selOk : String → Bool)
    (selMatch : String → List Node → List Node) (args : CrawlArgs)
    (u : String) (rest : List String) :
    crawl_website fuel fetch parseHtml selOk selMatch { args with urls := u :: rest } =
      crawl_website fuel fetch parseHtml selOk selMatch { args with urls := [u] } := by
  rfl

/-- C4 witness: with the concrete invalid-selector configuration, the
non-crawl multi-URL scrape returns zero results without failing. -/
theorem invalid_selector_fails_pages_not_run_witness :
    scrape_multiple fetchEmpty parseHtmlNone selOkNever selMatchNone argsBadSelector = [] :=
  (invalid_selector_fails_pages_not_run 4 fetchEmpty parseHtmlNone selOkNever
    selMatchNone argsBadSelector "p.unclosed" (by decide) rfl).2.2
